import Mathlib

/-!
Verification model of `scan.py`, a small OpenAPI endpoint scanner.

The program downloads an OpenAPI specification, iterates over its `paths`
mapping, probes every path that declares a `get` operation, and prints one
classified report line per probe (plus a hint line for 400/422 responses).

The embedding below is a shallow model of that script:

* Python values produced by `json.loads` are modelled by the mutual
  inductive `PyVal` / `PyList` / `PyDict` (dictionaries keep insertion
  order, as Python dicts do).
* Python strings are modelled by Lean `String`, with the primitive
  operations (`len`, slicing, `str.replace`) implemented explicitly on the
  underlying character list, matching Python's code-point semantics.
* The network is an oracle `net : String → NetOutcome` mapping a request
  URL to what `urllib.request.urlopen` does for it, and `json.loads` is an
  oracle `loads : String → Option PyVal` (`none` models a parse failure).
* `sys.exit(1)` and uncaught exceptions are modelled by the result type of
  `pyMain`: `none` is an uncaught exception (unreachable for the inputs the
  claims are about), `some (lines, code)` is a normal run printing `lines`
  and exiting with `code`.
-/

set_option linter.unusedVariables false

/-! ## Characters and strings -/

/-- The characters of a string (Python strings are sequences of code points). -/
def chars (s : String) : List Char := s.data

/-- Build a string back from its characters. -/
def strOf (l : List Char) : String := String.mk l

/-- The left curly brace character. -/
def lb : Char := Char.ofNat 123

/-- The right curly brace character. -/
def rb : Char := Char.ofNat 125

/-- Python `len` on a string. -/
def pyLen (s : String) : Nat := s.data.length

/-- Python slicing `s[:n]`. -/
def pyTake (s : String) (n : Nat) : String := strOf (s.data.take n)

/-- Python substring test `pat in s` on the character level. -/
def containsSub (pat : List Char) : List Char → Bool
  | [] => pat.isEmpty
  | c :: cs => pat.isPrefixOf (c :: cs) || containsSub pat cs

/-! ## Python values (results of `json.loads`) -/

mutual
/-- A Python value as produced by `json.loads` (floats are not needed by
the script, so numbers are modelled as integers). -/
inductive PyVal where
  | null
  | boolean (b : Bool)
  | int (n : Int)
  | str (s : String)
  | list (xs : PyList)
  | dict (kvs : PyDict)
  deriving DecidableEq
/-- A Python list of `PyVal`s. -/
inductive PyList where
  | nil
  | cons (v : PyVal) (rest : PyList)
  deriving DecidableEq
/-- A Python dict with string keys, in insertion order. -/
inductive PyDict where
  | nil
  | cons (key : String) (v : PyVal) (rest : PyDict)
  deriving DecidableEq
end

/-- Python truthiness: `bool(v)`. -/
def truthy : PyVal → Bool
  | .null => false
  | .boolean b => b
  | .int n => n != 0
  | .str s => s != ""
  | .list .nil => false
  | .list (.cons _ _) => true
  | .dict .nil => false
  | .dict (.cons _ _ _) => true

/-- Python `a or b` (returns `a` when `a` is truthy, else `b`). -/
def pyOr (a b : PyVal) : PyVal := if truthy a then a else b

/-- Dictionary lookup (keys of a Python dict are unique). -/
def pyLookup : PyDict → String → Option PyVal
  | .nil, _ => Option.none
  | .cons k v rest, key => if k = key then some v else pyLookup rest key

/-- Python `d.get(key)`: the value, or `None` when the key is absent. -/
def pyDictGet (kvs : PyDict) (key : String) : PyVal :=
  (pyLookup kvs key).getD .null

/-- Python `key in d` for a dict (key membership). -/
def dictHasKey : PyDict → String → Bool
  | .nil, _ => false
  | .cons k _ rest, key => k == key || dictHasKey rest key

/-- Python `needle == v` where `needle` is a string (equal strings only). -/
def pyEqStr : PyVal → String → Bool
  | .str s, key => s == key
  | _, _ => false

/-- Python `needle in xs` for a list. -/
def listHasStr : PyList → String → Bool
  | .nil, _ => false
  | .cons v rest, key => pyEqStr v key || listHasStr rest key

/-- Python `needle in v` for a string needle: key membership for dicts,
element equality for lists, substring test for strings; `none` models the
`TypeError` raised on other values. -/
def pyIn (needle : String) : PyVal → Option Bool
  | .dict kvs => some (dictHasKey kvs needle)
  | .list xs => some (listHasStr xs needle)
  | .str s => some (containsSub (chars needle) (chars s))
  | _ => Option.none

/-- Python `repr` of a string: quoted, preferring single quotes, with the
quote character and backslashes escaped (control-character escaping is not
modelled; the script only prints server-supplied printable text). -/
def pyReprStr (s : String) : String :=
  let sq := Char.ofNat 39
  let dq := Char.ofNat 34
  let bsl := Char.ofNat 92
  let q := if s.data.contains sq && !(s.data.contains dq) then dq else sq
  let esc := s.data.flatMap (fun c =>
    if c = bsl then [bsl, bsl] else if c = q then [bsl, q] else [c])
  strOf (q :: esc ++ [q])

mutual
/-- Python `repr(v)`. -/
def pyRepr : PyVal → String
  | .null => "None"
  | .boolean b => if b then "True" else "False"
  | .int n => toString n
  | .str s => pyReprStr s
  | .list xs => "[" ++ pyReprList xs ++ "]"
  | .dict kvs => "\x7b" ++ pyReprDict kvs ++ "\x7d"
/-- Comma-separated reprs of the elements of a list. -/
def pyReprList : PyList → String
  | .nil => ""
  | .cons v .nil => pyRepr v
  | .cons v rest => pyRepr v ++ ", " ++ pyReprList rest
/-- Comma-separated `key: value` reprs of the entries of a dict. -/
def pyReprDict : PyDict → String
  | .nil => ""
  | .cons k v .nil => pyReprStr k ++ ": " ++ pyRepr v
  | .cons k v rest => pyReprStr k ++ ": " ++ pyRepr v ++ ", " ++ pyReprDict rest
end

/-- Python `str(v)` (as applied by an f-string): strings unchanged, every
other value via `repr`-style rendering. -/
def pyStrTop : PyVal → String
  | .str s => s
  | v => pyRepr v

/-- Is the value a Python dict? -/
def isDict : PyVal → Bool
  | .dict _ => true
  | _ => false

/-! ## Console colours and fixed configuration (`scan.py` lines 6-16) -/

/-- ANSI green, `Colors.GREEN`. -/
def GREEN : String := "\x1b[92m"

/-- ANSI red, `Colors.RED`. -/
def RED : String := "\x1b[91m"

/-- ANSI yellow, `Colors.YELLOW`. -/
def YELLOW : String := "\x1b[93m"

/-- ANSI reset, `Colors.RESET`. -/
def RESET : String := "\x1b[0m"

/-- The static bearer token `TOKEN`. -/
def TOKEN : String := "JXeWdITivc2N0neAHWYxpriQcRpiiOvF2vJmIhBgnSs"

/-- The base URL `BASE_URL`. -/
def BASE_URL : String := "https://api.adultdatalink.com"

/-! ## Report lines (`main`, lines 73-96) -/

/-- The four report categories (which print branch of `main` fires). -/
inductive Category where
  | success
  | notFound
  | paramError
  | failed
  deriving DecidableEq

/-- Python `f"[TEST] \x7bpath:<40\x7d"`: pad on the right with spaces to
width 40 (no truncation). -/
def padTo40 (s : String) : String :=
  s ++ strOf (List.replicate (40 - pyLen s) (Char.ofNat 32))

/-- The first part of a probe's console line:
`print(f"[TEST] \x7bpath:<40\x7d", end=" ... ")`. -/
def testPrefix (path : String) : String := "[TEST] " ++ padTo40 path ++ " ... "

/-- The `isinstance(msg, list)` conversion: a list is turned into its
`str()` form, every other value is kept. -/
def listAsStr : PyVal → PyVal
  | .list xs => .str (pyRepr (.list xs))
  | v => v

/-- The hint line printed in the 400/422 branch (`scan.py` lines 86-94):
parse the body, take `detail` or `message` or `"Unknown error"` by Python
`or`-chaining, render lists via `str()`; on a parse failure — or any other
exception in the `try` block, such as calling `.get` on a non-dict — print
the first 50 characters of the raw body followed by `"..."`. -/
def hintLine (loads : String → Option PyVal) (body : String) : String :=
  match loads body with
  | some (.dict kvs) =>
      let msg := pyOr (pyDictGet kvs "detail")
        (pyOr (pyDictGet kvs "message") (.str "Unknown error"))
      "       -> Hint: " ++ pyStrTop (listAsStr msg)
  | _ => "       -> Raw: " ++ pyTake body 50 ++ "..."

/-- One probed endpoint's report: its path, probe status, the category of
the branch taken, and the console lines printed (one line, or two for a
parameter error). Mirrors the `if/elif` chain of `main`, lines 77-96. -/
structure Entry where
  path : String
  status : Nat
  category : Category
  lines : List String
  deriving DecidableEq

/-- Build the report entry for one probe result, following the `if/elif`
chain of `main` (lines 77-96). -/
def mkEntry (loads : String → Option PyVal) (path : String) (status : Nat)
    (body : String) : Entry :=
  if status = 200 then
    ⟨path, status, .success, [testPrefix path ++ GREEN ++ "SUCCESS (200)" ++ RESET]⟩
  else if status = 404 then
    ⟨path, status, .notFound, [testPrefix path ++ RED ++ "NOT FOUND (404)" ++ RESET]⟩
  else if status = 400 ∨ status = 422 then
    ⟨path, status, .paramError,
      [testPrefix path ++ YELLOW ++ "PARAM ERROR (" ++ toString status ++ ")" ++ RESET,
       hintLine loads body]⟩
  else
    ⟨path, status, .failed,
      [testPrefix path ++ RED ++ "FAILED (" ++ toString status ++ ")" ++ RESET]⟩

/-! ## Python `str.replace` (`fetch_api`, lines 29-35) -/

/-- Fuel-driven left-to-right scan implementing Python `s.replace(pat, rep)`
for a non-empty pattern: at each position, if `pat` is a prefix, emit `rep`
and skip past the occurrence, otherwise emit one character.  The fuel bounds
the recursion; it never runs out when it starts at the length of the input
(the empty-pattern behaviour of Python is not modelled — the script only
replaces non-empty placeholder tokens). -/
def replF (pat rep : List Char) : Nat → List Char → List Char
  | _, [] => []
  | 0, l => l
  | Nat.succ n, c :: cs =>
    if pat.isPrefixOf (c :: cs) then rep ++ replF pat rep n (cs.drop (pat.length - 1))
    else c :: replF pat rep n cs

/-- Python `l.replace(pat, rep)` on character lists. -/
def pyReplace (l pat rep : List Char) : List Char := replF pat rep l.length l

/-! ## Path templates

An OpenAPI path is a concatenation of brace-free literal segments and
bracketed parameter segments; `render` produces the path string of such a
template.  The materialization claims are proved for all paths of this
shape. -/

/-- One segment of a path template: a literal piece or a `\x7bname\x7d`
parameter. -/
inductive Seg where
  | lit (s : List Char)
  | param (name : List Char)
  deriving DecidableEq

/-- The characters a segment contributes to the path. -/
def Seg.render : Seg → List Char
  | .lit s => s
  | .param n => lb :: (n ++ [rb])

/-- The path string of a template. -/
def render : List Seg → List Char
  | [] => []
  | s :: t => s.render ++ render t

/-- A well-formed segment: its literal text or parameter name contains no
brace. -/
def SegWF : Seg → Prop
  | .lit s => lb ∉ s ∧ rb ∉ s
  | .param n => lb ∉ n ∧ rb ∉ n

instance (s : Seg) : Decidable (SegWF s) :=
  match s with
  | .lit s => inferInstanceAs (Decidable (lb ∉ s ∧ rb ∉ s))
  | .param n => inferInstanceAs (Decidable (lb ∉ n ∧ rb ∉ n))

/-- A well-formed template: every segment is well formed. -/
def TWF (t : List Seg) : Prop := ∀ s ∈ t, SegWF s

instance (t : List Seg) : Decidable (TWF t) :=
  inferInstanceAs (Decidable (∀ s ∈ t, SegWF s))

/-- Substitute one known parameter: `param m` becomes `lit rep`, everything
else is unchanged. -/
def substSeg (m rep : List Char) : Seg → Seg
  | .param n => if n = m then .lit rep else .param n
  | .lit s => .lit s

/-- The fixed placeholder table of `fetch_api` (lines 29-35), as a lookup
from parameter name to replacement text. -/
def knownSub (n : List Char) : Option (List Char) :=
  if n = chars "video_id" then some (chars "12345")
  else if n = chars "id" then some (chars "1")
  else if n = chars "category" then some (chars "anal")
  else if n = chars "pornstar_name" then some (chars "mia-khalifa")
  else if n = chars "username" then some (chars "admin")
  else if n = chars "keyword" then some (chars "teen")
  else if n = chars "q" then some (chars "latest")
  else Option.none

/-- Template-level effect of the placeholder table: known parameters become
their literal substitutes, unknown parameters and literals stay. -/
def segMaterialize : Seg → Seg
  | .lit s => .lit s
  | .param n =>
    match knownSub n with
    | some r => .lit r
    | Option.none => .param n

/-- The placeholder substitution chain of `fetch_api` (lines 29-35), one
`replace` per known token, in source order. -/
def materializeL (p : List Char) : List Char :=
  let p1 := pyReplace p (chars "\x7bvideo_id\x7d") (chars "12345")
  let p2 := pyReplace p1 (chars "\x7bid\x7d") (chars "1")
  let p3 := pyReplace p2 (chars "\x7bcategory\x7d") (chars "anal")
  let p4 := pyReplace p3 (chars "\x7bpornstar_name\x7d") (chars "mia-khalifa")
  let p5 := pyReplace p4 (chars "\x7busername\x7d") (chars "admin")
  let p6 := pyReplace p5 (chars "\x7bkeyword\x7d") (chars "teen")
  pyReplace p6 (chars "\x7bq\x7d") (chars "latest")

/-- Path materialization on strings. -/
def materialize (p : String) : String := strOf (materializeL (chars p))

/-! ## Request construction and dispatch (`fetch_api`, lines 38-55) -/

/-- The fixed query string appended to every probe (line 38). -/
def QUERY_STRING : String := "?q=latest&page=1&sort=date"

/-- The full request URL of a probe:
`f"\x7bBASE_URL\x7d\x7bpath\x7d?q=latest&page=1&sort=date"` after the
placeholder substitutions. -/
def fetch_url (path : String) : String := BASE_URL ++ materialize path ++ QUERY_STRING

/-- What `urllib.request.urlopen` does for one request: a response with a
status code and body, an `HTTPError` carrying a status code and body, or
any other exception with its textual description. -/
inductive NetOutcome where
  | success (status : Nat) (body : String)
  | httpError (code : Nat) (body : String)
  | transportError (desc : String)

/-- `fetch_api` (lines 27-55): build the URL and return a `(status, body)`
pair — the real status and body for a response or `HTTPError`, and the
sentinel `0` with the exception text for any other exception. -/
def fetch_api (net : String → NetOutcome) (path : String) : Nat × String :=
  match net (fetch_url path) with
  | .success status body => (status, body)
  | .httpError code body => (code, body)
  | .transportError desc => (0, desc)

/-! ## The scan loop and `main` (lines 57-102) -/

/-- The report entry the loop body produces for one probed path
(lines 73-96): probe it, then classify the `(status, body)` pair. -/
def probeEntry (loads : String → Option PyVal) (net : String → NetOutcome)
    (path : String) : Entry :=
  mkEntry loads path (fetch_api net path).1 (fetch_api net path).2

/-- The scan loop (lines 68-99) over the `paths.items()` list: skip
entries whose operation map lacks a `"get"` key, probe the rest in order.
`none` models the `TypeError` Python raises when `"get" in methods` is
applied to a value supporting no membership test. -/
def scanEntries (loads : String → Option PyVal) (net : String → NetOutcome) :
    List (String × PyVal) → Option (List Entry)
  | [] => some []
  | (path, methods) :: rest =>
    match pyIn "get" methods with
    | Option.none => Option.none
    | some false => scanEntries loads net rest
    | some true => (scanEntries loads net rest).map (probeEntry loads net path :: ·)

/-- Does the operation map declare a `"get"` operation? (`getD false` is
never taken on the inputs the claims quantify over.) -/
def hasGet (methods : PyVal) : Bool := (pyIn "get" methods).getD false

/-- The normal form of a completed scan: one entry per path whose
operation map has a `"get"` key, in list order. -/
def scanList (loads : String → Option PyVal) (net : String → NetOutcome)
    (l : List (String × PyVal)) : List Entry :=
  (l.filter (fun pm => hasGet pm.2)).map (fun pm => probeEntry loads net pm.1)

/-- The items of a Python dict, in insertion order. -/
def pyItems : PyDict → List (String × PyVal)
  | .nil => []
  | .cons k v rest => (k, v) :: pyItems rest

/-- The separator line `"-" * 50`. -/
def dashLine : String := strOf (List.replicate 50 (Char.ofNat 45))

/-- `spec.get("paths", \x7b\x7d)` (line 62): `none` models the
`AttributeError` raised when the parsed specification is not a dict. -/
def specPaths : PyVal → Option PyVal
  | .dict kvs => some ((pyLookup kvs "paths").getD (.dict .nil))
  | _ => Option.none

/-- The fatal message printed by `get_json` on any download or parse
failure (line 24), with `e` the exception's textual description. -/
def failLine (e : String) : String :=
  RED ++ ("Failed to download OpenAPI spec: " ++ (e ++ RESET))

/-- The discovery-count line (line 63). -/
def foundLine (n : Nat) : String := "   Found " ++ toString n ++ " paths definition."

/-- `main` (lines 57-102).  `specFetch` is the outcome of
`get_json(OPENAPI_URL)` (lines 18-25): `Except.error e` is any exception
during download or parse, with `e` the exception text interpolated into the
fatal message; `Except.ok spec` is the parsed document.  The result is
`some (console lines, exit code)` for a run that terminates normally or via
`sys.exit`, `none` for an uncaught exception. -/
def pyMain (loads : String → Option PyVal) (specFetch : Except String PyVal)
    (net : String → NetOutcome) : Option (List String × Nat) :=
  let header := [dashLine, "1. Downloading OpenAPI Spec..."]
  match specFetch with
  | .error e => some (header ++ [failLine e], 1)
  | .ok spec =>
    match specPaths spec with
    | Option.none => Option.none
    | some (.dict kvs) =>
      match scanEntries loads net (pyItems kvs) with
      | Option.none => Option.none
      | some entries =>
        some (header
          ++ [foundLine (pyItems kvs).length, dashLine, "2. Starting Scan...", dashLine]
          ++ (entries.map Entry.lines).flatten
          ++ [dashLine, "Scan Complete."], 0)
    | some _ => Option.none

/-! ## Concrete fixtures used by the witness theorems -/

/-- A parse oracle that fails on every body. -/
def wLoads : String → Option PyVal := fun _ => Option.none

/-- A network oracle answering 200/`"ok"` to every request. -/
def wNet : String → NetOutcome := fun _ => .success 200 "ok"

/-- A network oracle refusing every connection. -/
def wNetErr : String → NetOutcome := fun _ => .transportError "Connection refused"

/-- A parse oracle mapping every body to
`\x7b"detail": "", "message": "msg"\x7d` — a document whose `detail` field
is present but empty. -/
def cexLoads : String → Option PyVal :=
  fun _ => some (.dict (.cons "detail" (.str "") (.cons "message" (.str "msg") .nil)))

/-- A two-entry `paths` item list: one path with a `get` operation, one
with only `post`. -/
def wPaths : List (String × PyVal) :=
  [("/videos/\x7bvideo_id\x7d", .dict (.cons "get" (.dict .nil) .nil)),
   ("/meta", .dict (.cons "post" (.dict .nil) .nil))]

/-- A template with a known placeholder occurring twice and an unknown
placeholder, rendering to `/videos/\x7bvideo_id\x7d/x/\x7bvideo_id\x7d/u/\x7bfoo\x7d`. -/
def wTemplate : List Seg :=
  [.lit (chars "/videos/"), .param (chars "video_id"), .lit (chars "/x/"),
   .param (chars "video_id"), .lit (chars "/u/"), .param (chars "foo")]

/-! ## Lemmas about the replace scanner -/

theorem replF_nil (pat rep : List Char) (f : Nat) : replF pat rep f [] = [] := by
  cases f <;> rfl

theorem replF_fuel (pat rep : List Char) :
    ∀ (f g : Nat) (l : List Char), l.length ≤ f → l.length ≤ g →
      replF pat rep f l = replF pat rep g l := by
  intro f
  induction f with
  | zero =>
    intro g l hf hg
    have hl : l = [] := List.eq_nil_of_length_eq_zero (Nat.le_zero.mp hf)
    subst hl
    rw [replF_nil, replF_nil]
  | succ n ih =>
    intro g l hf hg
    cases l with
    | nil => rw [replF_nil, replF_nil]
    | cons c cs =>
      cases g with
      | zero => simp at hg
      | succ m =>
        have hcs : cs.length ≤ n := by simpa using hf
        have hcs' : cs.length ≤ m := by simpa using hg
        by_cases h : pat.isPrefixOf (c :: cs)
        · have hd : (cs.drop (pat.length - 1)).length ≤ cs.length := by
            rw [List.length_drop]; omega
          simp only [replF, if_pos h]
          congr 1
          exact ih _ _ (le_trans hd hcs) (le_trans hd hcs')
        · simp only [replF, if_neg h]
          congr 1
          exact ih _ _ hcs hcs'

theorem pyReplace_eq_replF (pat rep : List Char) (f : Nat) (l : List Char)
    (hf : l.length ≤ f) : pyReplace l pat rep = replF pat rep f l :=
  replF_fuel pat rep l.length f l le_rfl hf

theorem pyReplace_cons_neg (pat rep : List Char) (c : Char) (cs : List Char)
    (h : ¬ pat.isPrefixOf (c :: cs)) :
    pyReplace (c :: cs) pat rep = c :: pyReplace cs pat rep := by
  simp only [pyReplace, List.length_cons, replF, if_neg h]

theorem pyReplace_match (p : Char) (ps b rep : List Char) :
    pyReplace ((p :: ps) ++ b) (p :: ps) rep = rep ++ pyReplace b (p :: ps) rep := by
  have hpre : (p :: ps).isPrefixOf ((p :: ps) ++ b) :=
    List.isPrefixOf_iff_prefix.mpr ( List.prefix_append _ _)
  rw [List.cons_append] at hpre ⊢
  simp only [pyReplace, List.length_cons, List.length_append, replF, if_pos hpre]
  congr 1
  rw [show ps.length + 1 - 1 = ps.length by omega, List.drop_left]
  exact replF_fuel (p :: ps) rep (ps.length + b.length) b.length b (by omega) le_rfl

theorem pyReplace_append_left (p : Char) (ps rep : List Char) :
    ∀ (a b : List Char), p ∉ a →
      pyReplace (a ++ b) (p :: ps) rep = a ++ pyReplace b (p :: ps) rep := by
  intro a
  induction a with
  | nil => intro b _; rfl
  | cons c a' ih =>
    intro b hp
    have hpc : p ≠ c := fun h => hp (h ▸ List.mem_cons_self c a')
    have hnp : ¬ (p :: ps).isPrefixOf (c :: (a' ++ b)) := by
      rw [ List.isPrefixOf_iff_prefix, List.cons_prefix_cons]
      rintro ⟨h1, -⟩
      exact hpc h1
    rw [List.cons_append, pyReplace_cons_neg _ rep c (a' ++ b) hnp,
      ih b (fun hm => hp (List.mem_cons_of_mem c hm)), List.cons_append]

theorem pyReplace_of_not_infix (p : Char) (ps rep : List Char) :
    ∀ l : List Char, ¬ ((p :: ps) <:+: l) → pyReplace l (p :: ps) rep = l := by
  intro l
  induction l with
  | nil => intro _; rfl
  | cons c cs ih =>
    intro h
    have h1 : ¬ (p :: ps).isPrefixOf (c :: cs) := by
      intro hp
      exact h ( List.isPrefixOf_iff_prefix.mp hp).isInfix
    rw [pyReplace_cons_neg _ rep c cs h1, ih (fun hi => h ( List.infix_cons hi))]

/-! ## Lemmas about path templates -/

theorem not_prefix_of_param (m n rest : List Char) (hne : n ≠ m)
    (hm : rb ∉ m) (hn : rb ∉ n) :
    ¬ ((m ++ [rb]) <+: (n ++ [rb] ++ rest)) := by
  rintro ⟨t, ht⟩
  rw [List.append_assoc, List.append_assoc] at ht
  rcases List.append_eq_append_iff.mp ht with ⟨a, ha, hb⟩ | ⟨c, hc, hd⟩
  · cases a with
    | nil => simp at ha; exact hne ha
    | cons x xs =>
      rw [List.singleton_append, List.cons_append] at hb
      have hx : x = rb := (List.cons.injEq _ _ _ _ ▸ hb).1.symm
      subst hx
      exact hn (ha ▸ List.mem_append_right m (List.mem_cons_self _ _))
  · cases c with
    | nil => simp at hc; exact hne hc.symm
    | cons x xs =>
      rw [List.singleton_append, List.cons_append] at hd
      have hx : x = rb := (List.cons.injEq _ _ _ _ ▸ hd).1.symm
      subst hx
      exact hm (hc ▸ List.mem_append_right n (List.mem_cons_self _ _))

theorem pyReplace_param_other (m n rest rep : List Char) (hne : n ≠ m)
    (hmr : rb ∉ m) (hnl : lb ∉ n) (hnr : rb ∉ n) :
    pyReplace ((lb :: (n ++ [rb])) ++ rest) (lb :: (m ++ [rb])) rep
      = (lb :: (n ++ [rb])) ++ pyReplace rest (lb :: (m ++ [rb])) rep := by
  have h1 : ¬ (lb :: (m ++ [rb])).isPrefixOf (lb :: ((n ++ [rb]) ++ rest)) := by
    rw [ List.isPrefixOf_iff_prefix, List.cons_prefix_cons]
    rintro ⟨-, hpre⟩
    exact not_prefix_of_param m n rest hne hmr hnr hpre
  have h2 : lb ∉ n ++ [rb] := by
    intro hmem
    rcases List.mem_append.mp hmem with h | h
    · exact hnl h
    · have : lb = rb := List.mem_singleton.mp h
      exact absurd this (by decide)
  rw [List.cons_append, pyReplace_cons_neg _ rep lb ((n ++ [rb]) ++ rest) h1,
    pyReplace_append_left lb (m ++ [rb]) rep (n ++ [rb]) rest h2, List.cons_append]

theorem SegWF_of_mem_head {s : Seg} {t : List Seg} (h : TWF (s :: t)) : SegWF s :=
  h s (List.mem_cons_self s t)

theorem TWF_of_tail {s : Seg} {t : List Seg} (h : TWF (s :: t)) : TWF t :=
  fun x hx => h x (List.mem_cons_of_mem s hx)

theorem pyReplace_render (m rep : List Char) (hml : lb ∉ m) (hmr : rb ∉ m)
    (hrl : lb ∉ rep) (hrr : rb ∉ rep) :
    ∀ t : List Seg, TWF t →
      pyReplace (render t) (lb :: (m ++ [rb])) rep = render (t.map (substSeg m rep)) := by
  intro t
  induction t with
  | nil => intro _; rfl
  | cons s t' ih =>
    intro ht
    have hs : SegWF s := SegWF_of_mem_head ht
    have ht' : TWF t' := TWF_of_tail ht
    cases s with
    | lit a =>
      show pyReplace (a ++ render t') _ _ = render (Seg.lit a :: t'.map (substSeg m rep))
      rw [pyReplace_append_left lb (m ++ [rb]) rep a (render t') hs.1, ih ht']
      rfl
    | param n =>
      by_cases hn : n = m
      · subst hn
        show pyReplace ((lb :: (n ++ [rb])) ++ render t') _ _ = _
        rw [pyReplace_match lb (n ++ [rb]) (render t') rep, ih ht']
        simp [substSeg, render, Seg.render]
      · show pyReplace ((lb :: (n ++ [rb])) ++ render t') _ _ = _
        rw [pyReplace_param_other m n (render t') rep hn hmr hs.1 hs.2, ih ht']
        simp [substSeg, hn, render, Seg.render]

theorem TWF_map_substSeg (m rep : List Char) (hrl : lb ∉ rep) (hrr : rb ∉ rep)
    (t : List Seg) (ht : TWF t) : TWF (t.map (substSeg m rep)) := by
  intro s hs
  rw [List.mem_map] at hs
  obtain ⟨x, hx, rfl⟩ := hs
  have hw := ht x hx
  cases x with
  | lit a => exact hw
  | param n =>
    simp only [substSeg]
    by_cases h : n = m
    · rw [if_pos h]; exact ⟨hrl, hrr⟩
    · rw [if_neg h]; exact hw

theorem materializeL_render (t : List Seg) (ht : TWF t) :
    materializeL (render t) = render (t.map segMaterialize) := by
  have e1 : chars "\x7bvideo_id\x7d" = lb :: (chars "video_id" ++ [rb]) := by decide
  have e2 : chars "\x7bid\x7d" = lb :: (chars "id" ++ [rb]) := by decide
  have e3 : chars "\x7bcategory\x7d" = lb :: (chars "category" ++ [rb]) := by decide
  have e4 : chars "\x7bpornstar_name\x7d" = lb :: (chars "pornstar_name" ++ [rb]) := by decide
  have e5 : chars "\x7busername\x7d" = lb :: (chars "username" ++ [rb]) := by decide
  have e6 : chars "\x7bkeyword\x7d" = lb :: (chars "keyword" ++ [rb]) := by decide
  have e7 : chars "\x7bq\x7d" = lb :: (chars "q" ++ [rb]) := by decide
  have w1 := TWF_map_substSeg (chars "video_id") (chars "12345")
    (by decide) (by decide) t ht
  have w2 := TWF_map_substSeg (chars "id") (chars "1") (by decide) (by decide) _ w1
  have w3 := TWF_map_substSeg (chars "category") (chars "anal") (by decide) (by decide) _ w2
  have w4 := TWF_map_substSeg (chars "pornstar_name") (chars "mia-khalifa")
    (by decide) (by decide) _ w3
  have w5 := TWF_map_substSeg (chars "username") (chars "admin") (by decide) (by decide) _ w4
  have w6 := TWF_map_substSeg (chars "keyword") (chars "teen") (by decide) (by decide) _ w5
  simp only [materializeL, e1, e2, e3, e4, e5, e6, e7]
  rw [pyReplace_render (chars "video_id") (chars "12345") (by decide) (by decide)
    (by decide) (by decide) t ht]
  rw [pyReplace_render (chars "id") (chars "1") (by decide) (by decide)
    (by decide) (by decide) _ w1]
  rw [pyReplace_render (chars "category") (chars "anal") (by decide) (by decide)
    (by decide) (by decide) _ w2]
  rw [pyReplace_render (chars "pornstar_name") (chars "mia-khalifa") (by decide) (by decide)
    (by decide) (by decide) _ w3]
  rw [pyReplace_render (chars "username") (chars "admin") (by decide) (by decide)
    (by decide) (by decide) _ w4]
  rw [pyReplace_render (chars "keyword") (chars "teen") (by decide) (by decide)
    (by decide) (by decide) _ w5]
  rw [pyReplace_render (chars "q") (chars "latest") (by decide) (by decide)
    (by decide) (by decide) _ w6]
  rw [List.map_map, List.map_map, List.map_map, List.map_map, List.map_map, List.map_map]
  congr 1
  apply List.map_congr_left
  intro s hs
  cases s with
  | lit a => rfl
  | param n =>
    simp only [Function.comp_apply, substSeg, segMaterialize, knownSub]
    by_cases h1 : n = chars "video_id"
    · subst h1; decide
    · by_cases h2 : n = chars "id"
      · subst h2; decide
      · by_cases h3 : n = chars "category"
        · subst h3; decide
        · by_cases h4 : n = chars "pornstar_name"
          · subst h4; decide
          · by_cases h5 : n = chars "username"
            · subst h5; decide
            · by_cases h6 : n = chars "keyword"
              · subst h6; decide
              · by_cases h7 : n = chars "q"
                · subst h7; decide
                · simp [h1, h2, h3, h4, h5, h6, h7]

theorem segMaterialize_idem (s : Seg) : segMaterialize (segMaterialize s) = segMaterialize s := by
  cases s with
  | lit a => rfl
  | param n =>
    simp only [segMaterialize]
    cases h : knownSub n with
    | none => simp [segMaterialize, h]
    | some r => rfl

theorem TWF_map_segMaterialize (t : List Seg) (ht : TWF t) : TWF (t.map segMaterialize) := by
  intro s hs
  rw [List.mem_map] at hs
  obtain ⟨x, hx, rfl⟩ := hs
  have hw := ht x hx
  cases x with
  | lit a => exact hw
  | param n =>
    by_cases h1 : n = chars "video_id"
    · subst h1; decide
    · by_cases h2 : n = chars "id"
      · subst h2; decide
      · by_cases h3 : n = chars "category"
        · subst h3; decide
        · by_cases h4 : n = chars "pornstar_name"
          · subst h4; decide
          · by_cases h5 : n = chars "username"
            · subst h5; decide
            · by_cases h6 : n = chars "keyword"
              · subst h6; decide
              · by_cases h7 : n = chars "q"
                · subst h7; decide
                · have hk : knownSub n = Option.none := by
                    simp [knownSub, h1, h2, h3, h4, h5, h6, h7]
                  simp only [segMaterialize, hk]
                  exact hw

/-! ## Lemmas about the scan loop and console lines -/

theorem scanEntries_eq (loads : String → Option PyVal) (net : String → NetOutcome) :
    ∀ l : List (String × PyVal), (∀ pm ∈ l, (pyIn "get" pm.2).isSome) →
      scanEntries loads net l = some (scanList loads net l) := by
  intro l
  induction l with
  | nil => intro _; rfl
  | cons pm rest ih =>
    intro h
    obtain ⟨path, methods⟩ := pm
    have h1 : (pyIn "get" methods).isSome := h _ (List.mem_cons_self _ _)
    have h2 := ih (fun x hx => h x (List.mem_cons_of_mem _ hx))
    cases hg : pyIn "get" methods with
    | none => rw [hg] at h1; simp at h1
    | some b =>
      cases b with
      | false =>
        simp only [scanEntries, hg, h2]
        simp [scanList, List.filter_cons, hasGet, hg]
      | true =>
        simp only [scanEntries, hg, h2, Option.map_some]
        simp [scanList, List.filter_cons, hasGet, hg]

theorem scanList_append (loads : String → Option PyVal) (net : String → NetOutcome)
    (l₁ l₂ : List (String × PyVal)) :
    scanList loads net (l₁ ++ l₂) = scanList loads net l₁ ++ scanList loads net l₂ := by
  simp [scanList, List.filter_append]

theorem scanList_length (loads : String → Option PyVal) (net : String → NetOutcome)
    (l : List (String × PyVal)) :
    (scanList loads net l).length = l.countP (fun pm => hasGet pm.2) := by
  simp [scanList, List.countP_eq_length_filter]

theorem data_append (a b : String) : (a ++ b).data = a.data ++ b.data := by
  cases a; cases b; rfl

theorem ne_of_head (a b : String) (h : a.data.head? ≠ b.data.head?) : a ≠ b := by
  intro he
  exact h (by rw [he])

theorem failLine_head (e : String) :
    (failLine e).data.head? = some (Char.ofNat 27) := by
  simp only [failLine, data_append]
  rw [show RED.data = Char.ofNat 27 :: chars "[91m" by decide]
  rfl

theorem dashLine_ne_failLine (e : String) : dashLine ≠ failLine e := by
  apply ne_of_head
  rw [failLine_head e]
  decide

theorem step1_ne_failLine (e : String) : "1. Downloading OpenAPI Spec..." ≠ failLine e := by
  apply ne_of_head
  rw [failLine_head e]
  decide

theorem data_inj (a b : String) (h : a.data = b.data) : a = b := by
  cases a; cases b; cases h; rfl

theorem str_append_assoc (a b c : String) : a ++ b ++ c = a ++ (b ++ c) :=
  data_inj _ _ (by rw [data_append, data_append, data_append, data_append, List.append_assoc])

theorem raw_ne_hint (x y : String) :
    "       -> Raw: " ++ x ≠ "       -> Hint: " ++ y := by
  intro he
  have hd := congrArg String.data he
  rw [data_append, data_append] at hd
  have ht := congrArg (List.take 11) hd
  rw [List.take_append_of_le_length (by decide),
    List.take_append_of_le_length (by decide)] at ht
  exact absurd ht (by decide)

/-! ## Claim theorems -/

/-- C1: the report category is a deterministic function of the status code
alone — status 200 yields SUCCESS, 404 yields NOT FOUND, 400 and 422 yield
PARAM ERROR, and any other status yields FAILED; the 0 sentinel for a
transport failure falls in the FAILED branch and its line prints the
status `0`. -/
theorem scan_c1_status_classification
    (loads loads2 : String → Option PyVal) (p p2 b b2 : String) (s : Nat) :
    (mkEntry loads p 200 b).category = Category.success
  ∧ (mkEntry loads p 404 b).category = Category.notFound
  ∧ (mkEntry loads p 400 b).category = Category.paramError
  ∧ (mkEntry loads p 422 b).category = Category.paramError
  ∧ (s ≠ 200 → s ≠ 404 → s ≠ 400 → s ≠ 422 →
      (mkEntry loads p s b).category = Category.failed)
  ∧ (mkEntry loads p s b).category = (mkEntry loads2 p2 s b2).category
  ∧ (mkEntry loads p 0 b).lines = [testPrefix p ++ RED ++ "FAILED (0)" ++ RESET] := by
  refine ⟨by simp [mkEntry], by simp [mkEntry], by simp [mkEntry], by simp [mkEntry],
    ?_, ?_, ?_⟩
  · intro h200 h404 h400 h422
    simp [mkEntry, h200, h404, h400, h422]
  · by_cases h200 : s = 200
    · simp [mkEntry, h200]
    · by_cases h404 : s = 404
      · simp [mkEntry, h200, h404]
      · by_cases h4x : s = 400 ∨ s = 422
        · rcases h4x with h | h <;> simp [mkEntry, h]
        · push_neg at h4x
          simp [mkEntry, h200, h404, h4x.1, h4x.2]
  · have h1 : (mkEntry loads p 0 b).lines
        = [testPrefix p ++ RED ++ "FAILED (" ++ toString (0 : Nat) ++ ")" ++ RESET] := by
      simp [mkEntry]
    rw [h1]
    have h2 : testPrefix p ++ RED ++ "FAILED (" ++ toString (0 : Nat) ++ ")" ++ RESET
        = testPrefix p ++ RED ++ "FAILED (0)" ++ RESET := by
      apply data_inj
      simp only [data_append, List.append_assoc]
      exact congrArg (fun t => (testPrefix p).data ++ t) (by decide)
    rw [h2]

/-- C1 witness: concrete instances of the hypotheses-bearing conjunct — a
status of 500 (and of 0) is reported FAILED. -/
theorem scan_c1_status_classification_witness :
    (mkEntry wLoads "/a" 500 "x").category = Category.failed
  ∧ (mkEntry wLoads "/a" 0 "x").category = Category.failed
  ∧ (mkEntry wLoads "/a" 200 "x").category = Category.success :=
  ⟨(scan_c1_status_classification wLoads wLoads "/a" "/a" "x" "x" 500).2.2.2.2.1
      (by decide) (by decide) (by decide) (by decide),
   (scan_c1_status_classification wLoads wLoads "/a" "/a" "x" "x" 0).2.2.2.2.1
      (by decide) (by decide) (by decide) (by decide),
   (scan_c1_status_classification wLoads wLoads "/a" "/a" "x" "x" 200).1⟩

/-- C3 counterexample: the claim says the hint is the value of the `detail`
field whenever that field is present, falling back to `message` only when
`detail` is absent.  For the body parsed as
`\x7b"detail": "", "message": "msg"\x7d` the `detail` field is present
(with value `""`), yet the code prints the `message` value `msg`, because
Python's `or`-chain falls through on every falsy value, not only on absent
fields. -/
theorem scan_c3_counterexample :
    pyLookup (.cons "detail" (.str "") (.cons "message" (.str "msg") .nil)) "detail"
      = some (PyVal.str "")
  ∧ hintLine cexLoads "\x7b\"detail\": \"\", \"message\": \"msg\"\x7d"
      = "       -> Hint: msg"
  ∧ "       -> Hint: msg" ≠ "       -> Hint: " ++ pyStrTop (listAsStr (PyVal.str "")) := by
  refine ⟨by decide, by decide, ?_⟩
  intro h
  have := congrArg String.data h
  simp [data_append] at this
  exact absurd (congrArg List.length this) (by decide)

/-- C3 (amended): the hint printed for a parsed 400/422 body is the
`detail` value when that value is truthy, else the `message` value when
truthy, else the literal `"Unknown error"` (Python `or`-chaining: absent
fields give `None`, and `None`, `false`, `0`, empty strings and empty
containers all fall through); a list value is rendered via `str()`; and
when parsing fails the hint is the first 50 characters of the raw body
followed by `"..."`. -/
theorem scan_c3_hint_extraction_amended
    (loads : String → Option PyVal) (body : String) (kvs : PyDict) :
    (loads body = some (.dict kvs) → truthy (pyDictGet kvs "detail") = true →
      hintLine loads body
        = "       -> Hint: " ++ pyStrTop (listAsStr (pyDictGet kvs "detail")))
  ∧ (loads body = some (.dict kvs) → truthy (pyDictGet kvs "detail") = false →
      truthy (pyDictGet kvs "message") = true →
      hintLine loads body
        = "       -> Hint: " ++ pyStrTop (listAsStr (pyDictGet kvs "message")))
  ∧ (loads body = some (.dict kvs) → truthy (pyDictGet kvs "detail") = false →
      truthy (pyDictGet kvs "message") = false →
      hintLine loads body = "       -> Hint: Unknown error")
  ∧ (loads body = Option.none →
      hintLine loads body = "       -> Raw: " ++ pyTake body 50 ++ "...") := by
  refine ⟨?_, ?_, ?_, ?_⟩
  · intro h hD
    simp [hintLine, h, pyOr, hD]
  · intro h hD hM
    simp [hintLine, h, pyOr, hD, hM]
  · intro h hD hM
    simp [hintLine, h, pyOr, hD, hM, listAsStr, pyStrTop]
  · intro h
    simp [hintLine, h]

/-- C3 witness: the amended extraction rule at concrete inputs, including
the specification's own examples — a string `detail`, a list `detail`
rendered via `str()`, the falsy fall-through, and the parse-failure raw
preview. -/
theorem scan_c3_hint_extraction_amended_witness :
    hintLine (fun _ => some (.dict (.cons "detail" (.str "x is required") .nil)))
        "\x7b\"detail\": \"x is required\"\x7d" = "       -> Hint: x is required"
  ∧ hintLine (fun _ => some (.dict (.cons "detail"
        (.list (.cons (.str "a") (.cons (.str "b") .nil))) .nil)))
        "\x7b\"detail\": [\"a\", \"b\"]\x7d"
      = "       -> Hint: " ++ pyRepr (.list (.cons (.str "a") (.cons (.str "b") .nil)))
  ∧ hintLine cexLoads "\x7b\"detail\": \"\", \"message\": \"msg\"\x7d"
      = "       -> Hint: msg"
  ∧ hintLine (fun _ => some (.dict .nil)) "\x7b\x7d" = "       -> Hint: Unknown error"
  ∧ hintLine wLoads "not json" = "       -> Raw: not json..." := by
  refine ⟨?_, ?_, ?_, ?_, ?_⟩
  · rw [(scan_c3_hint_extraction_amended
      (fun _ => some (.dict (.cons "detail" (.str "x is required") .nil)))
      "\x7b\"detail\": \"x is required\"\x7d"
      (.cons "detail" (.str "x is required") .nil)).1 rfl (by decide)]
    decide
  · rw [(scan_c3_hint_extraction_amended
      (fun _ => some (.dict (.cons "detail"
        (.list (.cons (.str "a") (.cons (.str "b") .nil))) .nil)))
      "\x7b\"detail\": [\"a\", \"b\"]\x7d"
      (.cons "detail" (.list (.cons (.str "a") (.cons (.str "b") .nil))) .nil)).1
      rfl (by decide)]
    decide
  · rw [(scan_c3_hint_extraction_amended cexLoads
      "\x7b\"detail\": \"\", \"message\": \"msg\"\x7d"
      (.cons "detail" (.str "") (.cons "message" (.str "msg") .nil))).2.1
      rfl (by decide) (by decide)]
    decide
  · rw [(scan_c3_hint_extraction_amended (fun _ => some (.dict .nil)) "\x7b\x7d"
      PyDict.nil).2.2.1 rfl (by decide) (by decide)]
  · rw [(scan_c3_hint_extraction_amended wLoads "not json" PyDict.nil).2.2.2 rfl]
    decide

/-- C10: when the body of a 400/422 response parses to a value that is not
a dict (a JSON array, string, number, boolean or null), the printed hint is
the raw-text fallback — the first 50 characters of the body followed by
`"..."` — and not the `"Unknown error"` fallback, because looking up a
field on a non-dict raises inside the same `try` block that catches parse
failures. -/
theorem scan_c10_nonobject_raw_fallback
    (loads : String → Option PyVal) (body : String) (v : PyVal)
    (hv : loads body = some v) (hd : isDict v = false) :
    hintLine loads body = "       -> Raw: " ++ pyTake body 50 ++ "..."
  ∧ hintLine loads body ≠ "       -> Hint: Unknown error" := by
  have heq : hintLine loads body = "       -> Raw: " ++ pyTake body 50 ++ "..." := by
    cases v with
    | dict kvs => simp [isDict] at hd
    | null => simp [hintLine, hv]
    | boolean b => simp [hintLine, hv]
    | int n => simp [hintLine, hv]
    | str s => simp [hintLine, hv]
    | list xs => simp [hintLine, hv]
  refine ⟨heq, ?_⟩
  rw [heq, str_append_assoc]
  rw [show ("       -> Hint: Unknown error" : String)
    = "       -> Hint: " ++ "Unknown error" by decide]
  exact raw_ne_hint _ _

/-- C10 witness: a 422 body parsing to the JSON array `[1]` produces the
raw preview, not the `"Unknown error"` hint. -/
theorem scan_c10_nonobject_raw_fallback_witness :
    hintLine (fun _ => some (.list (.cons (.int 1) .nil))) "[1]"
      = "       -> Raw: [1]..."
  ∧ hintLine (fun _ => some (.list (.cons (.int 1) .nil))) "[1]"
      ≠ "       -> Hint: Unknown error" := by
  have h := scan_c10_nonobject_raw_fallback
    (fun _ => some (.list (.cons (.int 1) .nil))) "[1]"
    (.list (.cons (.int 1) .nil)) rfl (by decide)
  refine ⟨?_, h.2⟩
  rw [h.1]
  decide

/-- C2: over any loaded specification's `paths` items in which every
operation map supports a membership test, the scan produces exactly one
report entry per path whose operation map has a `"get"` key, in the item
list's order (a `filter` of the original order — no re-sorting), and no
entry for any path whose operation map lacks `"get"`. -/
theorem scan_c2_one_entry_per_get_path (loads : String → Option PyVal)
    (net : String → NetOutcome) (l : List (String × PyVal))
    (h : ∀ pm ∈ l, (pyIn "get" pm.2).isSome) :
    scanEntries loads net l
      = some ((l.filter (fun pm => hasGet pm.2)).map (fun pm => probeEntry loads net pm.1))
  ∧ (scanList loads net l).length = l.countP (fun pm => hasGet pm.2) :=
  ⟨scanEntries_eq loads net l h, scanList_length loads net l⟩

/-- C2 witness: a two-path specification with one `get` path and one
`post`-only path yields exactly the one entry for the `get` path. -/
theorem scan_c2_one_entry_per_get_path_witness :
    scanEntries wLoads wNet wPaths = some [probeEntry wLoads wNet "/videos/\x7bvideo_id\x7d"]
  ∧ (scanList wLoads wNet wPaths).length = 1 := by
  have h := scan_c2_one_entry_per_get_path wLoads wNet wPaths (by decide)
  refine ⟨?_, ?_⟩
  · rw [h.1]
    decide
  · rw [h.2]
    decide

/-- C4: path materialization over well-formed path templates (brace-free
literal segments interleaved with bracketed parameter segments): every
known placeholder occurrence is replaced by its table entry and unknown
placeholders survive (the simulation equation); materialization is
idempotent; a path containing a known placeholder twice has both
occurrences replaced identically; and a placeholder outside the table is
left literally in the path. -/
theorem scan_c4_path_materialization (t : List Seg) (ht : TWF t) :
    materializeL (render t) = render (t.map segMaterialize)
  ∧ materializeL (materializeL (render t)) = materializeL (render t)
  ∧ (∀ a b c n r, lb ∉ a → rb ∉ a → lb ∉ b → rb ∉ b → lb ∉ c → rb ∉ c →
      lb ∉ n → rb ∉ n → knownSub n = some r →
      materializeL (a ++ (lb :: (n ++ [rb])) ++ b ++ (lb :: (n ++ [rb])) ++ c)
        = a ++ r ++ b ++ r ++ c)
  ∧ (∀ a b n, lb ∉ a → rb ∉ a → lb ∉ b → rb ∉ b → lb ∉ n → rb ∉ n →
      knownSub n = Option.none →
      materializeL (a ++ (lb :: (n ++ [rb])) ++ b) = a ++ (lb :: (n ++ [rb])) ++ b) := by
  refine ⟨materializeL_render t ht, ?_, ?_, ?_⟩
  · rw [materializeL_render t ht,
      materializeL_render (t.map segMaterialize) (TWF_map_segMaterialize t ht),
      List.map_map]
    exact congrArg render (List.map_congr_left fun s _ => segMaterialize_idem s)
  · intro a b c n r ha1 ha2 hb1 hb2 hc1 hc2 hn1 hn2 hr
    have hw : TWF [Seg.lit a, Seg.param n, Seg.lit b, Seg.param n, Seg.lit c] := by
      intro s hs
      simp only [List.mem_cons, List.not_mem_nil, or_false] at hs
      rcases hs with rfl | rfl | rfl | rfl | rfl <;> exact ⟨by assumption, by assumption⟩
    have hsim := materializeL_render _ hw
    simp only [render, Seg.render, List.map, substSeg, segMaterialize, hr,
      List.append_nil, List.append_assoc, List.cons_append] at hsim
    simpa [List.append_assoc, List.cons_append] using hsim
  · intro a b n ha1 ha2 hb1 hb2 hn1 hn2 hr
    have hw : TWF [Seg.lit a, Seg.param n, Seg.lit b] := by
      intro s hs
      simp only [List.mem_cons, List.not_mem_nil, or_false] at hs
      rcases hs with rfl | rfl | rfl <;> exact ⟨by assumption, by assumption⟩
    have hsim := materializeL_render _ hw
    simp only [render, Seg.render, List.map, substSeg, segMaterialize, hr,
      List.append_nil, List.append_assoc, List.cons_append] at hsim
    simpa [List.append_assoc, List.cons_append] using hsim

/-- C4 witness: a template with `video_id` twice and the unknown
placeholder `foo` materializes both occurrences identically, keeps `foo`,
and is a fixed point of a second materialization. -/
theorem scan_c4_path_materialization_witness :
    TWF wTemplate
  ∧ materializeL (render wTemplate) = chars "/videos/12345/x/12345/u/\x7bfoo\x7d"
  ∧ materializeL (materializeL (render wTemplate)) = materializeL (render wTemplate) := by
  have h := scan_c4_path_materialization wTemplate (by decide)
  refine ⟨by decide, ?_, h.2.1⟩
  rw [h.1]
  decide

/-- C5: the request URL of every probe is exactly the base URL, the
materialized path and the fixed query string `?q=latest&page=1&sort=date`,
appended unconditionally; the template `/videos/\x7bvideo_id\x7d` yields a
request to
`https://api.adultdatalink.com/videos/12345?q=latest&page=1&sort=date`,
and a mocked 200 response at that URL classifies the probe SUCCESS. -/
theorem scan_c5_request_url (loads : String → Option PyVal)
    (net : String → NetOutcome) (p : String) :
    fetch_url p = BASE_URL ++ materialize p ++ QUERY_STRING
  ∧ fetch_url "/videos/\x7bvideo_id\x7d"
      = "https://api.adultdatalink.com/videos/12345?q=latest&page=1&sort=date"
  ∧ (∀ s b, net (fetch_url p) = NetOutcome.success s b → fetch_api net p = (s, b))
  ∧ (∀ b, net "https://api.adultdatalink.com/videos/12345?q=latest&page=1&sort=date"
        = NetOutcome.success 200 b →
      (probeEntry loads net "/videos/\x7bvideo_id\x7d").category = Category.success) := by
  refine ⟨rfl, by decide, ?_, ?_⟩
  · intro s b h
    simp [fetch_api, h]
  · intro b h
    have hu : fetch_url "/videos/\x7bvideo_id\x7d"
        = "https://api.adultdatalink.com/videos/12345?q=latest&page=1&sort=date" := by decide
    simp [probeEntry, fetch_api, hu, h, mkEntry]

/-- C5 witness: with a network answering 200 everywhere, the probe of
`/videos/\x7bvideo_id\x7d` returns the mocked response and is SUCCESS. -/
theorem scan_c5_request_url_witness :
    fetch_api wNet "/videos/\x7bvideo_id\x7d" = (200, "ok")
  ∧ (probeEntry wLoads wNet "/videos/\x7bvideo_id\x7d").category = Category.success := by
  have h := scan_c5_request_url wLoads wNet "/videos/\x7bvideo_id\x7d"
  exact ⟨h.2.2.1 200 "ok" rfl, h.2.2.2 "ok" rfl⟩

/-- C6: a probe always returns a `(status, body)` pair — a response gives
its status and body, an HTTP error response gives its real status code and
body, and a transport-level exception with no HTTP status gives the
sentinel status 0 with the exception's textual description as body. -/
theorem scan_c6_probe_result_pair (net : String → NetOutcome) (p : String) :
    (∀ s b, net (fetch_url p) = NetOutcome.success s b → fetch_api net p = (s, b))
  ∧ (∀ c b, net (fetch_url p) = NetOutcome.httpError c b → fetch_api net p = (c, b))
  ∧ (∀ d, net (fetch_url p) = NetOutcome.transportError d → fetch_api net p = (0, d)) := by
  refine ⟨?_, ?_, ?_⟩
  · intro s b h
    simp [fetch_api, h]
  · intro c b h
    simp [fetch_api, h]
  · intro d h
    simp [fetch_api, h]

/-- C6 witness: a 422 `HTTPError` yields `(422, body)`, and a refused
connection yields `(0, exception text)`. -/
theorem scan_c6_probe_result_pair_witness :
    fetch_api (fun _ => NetOutcome.httpError 422 "bad") "/x" = (422, "bad")
  ∧ fetch_api wNetErr "/x" = (0, "Connection refused") :=
  ⟨(scan_c6_probe_result_pair (fun _ => NetOutcome.httpError 422 "bad") "/x").2.1 422 "bad" rfl,
   (scan_c6_probe_result_pair wNetErr "/x").2.2 "Connection refused" rfl⟩

/-- C7: when fetching or parsing the specification fails, the run prints
the two header lines plus exactly one fatal message identifying a download
failure with the underlying cause, probes nothing (the network oracle is
never consulted — the output is the same for every network), and exits
with the non-zero code 1. -/
theorem scan_c7_spec_fetch_failure_fatal (loads : String → Option PyVal)
    (net net2 : String → NetOutcome) (e : String) :
    pyMain loads (.error e) net
      = some ([dashLine, "1. Downloading OpenAPI Spec...", failLine e], 1)
  ∧ pyMain loads (.error e) net = pyMain loads (.error e) net2
  ∧ (∀ lines code, pyMain loads (.error e) net = some (lines, code) →
      code ≠ 0
      ∧ lines.countP (fun s => decide (s = failLine e)) = 1
      ∧ lines.length = 3) := by
  refine ⟨rfl, rfl, ?_⟩
  intro lines code h
  have h2 := Option.some.inj h.symm
  have hl : lines = [dashLine, "1. Downloading OpenAPI Spec...", failLine e] :=
    (Prod.mk.injEq _ _ _ _ ▸ h2).1
  have hc : code = 1 := (Prod.mk.injEq _ _ _ _ ▸ h2).2
  subst hl
  subst hc
  refine ⟨by decide, ?_, rfl⟩
  simp [List.countP_cons, List.countP_nil, dashLine_ne_failLine e, step1_ne_failLine e]

/-- C7 witness: a concrete refused connection at spec-download time. -/
theorem scan_c7_spec_fetch_failure_fatal_witness :
    pyMain wLoads (.error "Connection refused") wNet
      = some ([dashLine, "1. Downloading OpenAPI Spec...", failLine "Connection refused"], 1)
  ∧ ([dashLine, "1. Downloading OpenAPI Spec...",
      failLine "Connection refused"].countP
        (fun s => decide (s = failLine "Connection refused"))) = 1 := by
  have h := scan_c7_spec_fetch_failure_fatal wLoads wNet wNet "Connection refused"
  exact ⟨h.1, (h.2.2 _ 1 h.1).2.1⟩

/-- C8: per-endpoint failures are contained — over items whose operation
maps support the membership test, the scan always completes (for every
network oracle, including all-failing ones), its entry list splits at any
partition of the item list, its length is the count of `get` paths
independently of any probe outcomes, and the entries of a sublist depend
only on the network's answers at that sublist's own request URLs. -/
theorem scan_c8_per_endpoint_containment (loads : String → Option PyVal)
    (net net2 : String → NetOutcome) (l₁ l₂ : List (String × PyVal))
    (h₁ : ∀ pm ∈ l₁, (pyIn "get" pm.2).isSome)
    (h₂ : ∀ pm ∈ l₂, (pyIn "get" pm.2).isSome) :
    scanEntries loads net (l₁ ++ l₂)
      = some (scanList loads net l₁ ++ scanList loads net l₂)
  ∧ (scanEntries loads net (l₁ ++ l₂)).isSome
  ∧ (scanList loads net (l₁ ++ l₂)).length = (l₁ ++ l₂).countP (fun pm => hasGet pm.2)
  ∧ ((∀ pm ∈ l₂, net2 (fetch_url pm.1) = net (fetch_url pm.1)) →
      scanList loads net2 l₂ = scanList loads net l₂) := by
  have hall : ∀ pm ∈ l₁ ++ l₂, (pyIn "get" pm.2).isSome := by
    intro pm hm
    rcases List.mem_append.mp hm with h | h
    · exact h₁ pm h
    · exact h₂ pm h
  refine ⟨?_, ?_, scanList_length loads net _, ?_⟩
  · rw [scanEntries_eq loads net _ hall, scanList_append]
  · rw [scanEntries_eq loads net _ hall]
    simp
  · intro hagree
    simp only [scanList]
    apply List.map_congr_left
    intro pm hpm
    have hmem : pm ∈ l₂ := List.mem_of_mem_filter hpm
    simp only [probeEntry, fetch_api, hagree pm hmem]

/-- C8 witness: even with every connection refused, a four-item scan
completes, splits at the partition, and reports both `get` paths. -/
theorem scan_c8_per_endpoint_containment_witness :
    scanEntries wLoads wNetErr (wPaths ++ wPaths)
      = some (scanList wLoads wNetErr wPaths ++ scanList wLoads wNetErr wPaths)
  ∧ (scanList wLoads wNetErr (wPaths ++ wPaths)).length = 2 := by
  have h := scan_c8_per_endpoint_containment wLoads wNetErr wNetErr wPaths wPaths
    (by decide) (by decide)
  refine ⟨h.1, ?_⟩
  rw [h.2.2.1]
  decide

/-- C9: a specification that parses to a JSON object with no `paths` key
is not fatal — the run reports 0 discovered paths, emits no probe line,
prints the completion banner and exits with code 0. -/
theorem scan_c9_missing_paths_key (loads : String → Option PyVal)
    (net : String → NetOutcome) (kvs : PyDict)
    (h : pyLookup kvs "paths" = Option.none) :
    pyMain loads (.ok (.dict kvs)) net
      = some ([dashLine, "1. Downloading OpenAPI Spec...", foundLine 0,
               dashLine, "2. Starting Scan...", dashLine, dashLine, "Scan Complete."], 0) := by
  simp [pyMain, specPaths, h, scanEntries, pyItems]

/-- C9 witness: a specification document with only an `openapi` key. -/
theorem scan_c9_missing_paths_key_witness :
    pyMain wLoads (.ok (.dict (.cons "openapi" (.str "3.1.0") .nil))) wNet
      = some ([dashLine, "1. Downloading OpenAPI Spec...", foundLine 0,
               dashLine, "2. Starting Scan...", dashLine, dashLine, "Scan Complete."], 0) :=
  scan_c9_missing_paths_key wLoads wNet (.cons "openapi" (.str "3.1.0") .nil) (by decide)
